import Mathlib

/-!
Verification development for the per-file EPUB ingestion pipeline
(`src/core/pipeline.py`, `src/tasks/extract.py`, `src/tasks/integrate.py`,
`src/core/state.py`, `src/main.py`).

The Python source is shallowly embedded: pure functions become Lean
functions; collaborator calls (database, HTTP, container parser, OCR,
regex engine) become explicit inputs, with `Except String` modelling a
call that may raise an exception whose description is the carried string.
-/

namespace SortBook

/-! ## Basic string helpers shared by the embedded functions -/

/-- Digit value of an ASCII character, as Python `int(digit)` computes it
for a character that passed `isdigit`. -/
def charDigitVal (c : Char) : Nat := c.toNat - 48

/-- Boolean prefix test on character lists (Python `str.startswith` over a
sliding window, used to implement substring search). -/
def isPrefixOfB : List Char → List Char → Bool
  | [], _ => true
  | _ :: _, [] => false
  | a :: as, b :: bs => (a == b) && isPrefixOfB as bs

/-- Substring containment on character lists, Python `needle in hay`. -/
def containsSubL (needle : List Char) : List Char → Bool
  | [] => needle.isEmpty
  | c :: t => isPrefixOfB needle (c :: t) || containsSubL needle t

/-- Substring containment on strings, Python `needle in hay`. -/
def containsSub (hay needle : String) : Bool :=
  containsSubL needle.data hay.data

/-- Lower-casing as Python `str.lower` (character-wise). -/
def lowerStr (s : String) : String := ⟨s.data.map Char.toLower⟩

/-- Upper-casing as Python `str.upper` (character-wise). -/
def upperStr (s : String) : String := ⟨s.data.map Char.toUpper⟩

/-- Python `str.strip`: drops leading and trailing whitespace. -/
def stripStr (s : String) : String :=
  ⟨(s.data.dropWhile Char.isWhitespace).reverse.dropWhile Char.isWhitespace |>.reverse⟩

/-- Boolean suffix test, Python `str.endswith`. -/
def endsWithStr (s suffixStr : String) : Bool :=
  isPrefixOfB suffixStr.data.reverse s.data.reverse

/-- Python `"sep".join(parts)`. -/
def joinSep (sep : String) : List String → String
  | [] => ""
  | [x] => x
  | x :: y :: rest => x ++ sep ++ joinSep sep (y :: rest)

/-- Fuel-driven worker for `removeAll`; the fuel starts at the length of
the list, which bounds the number of steps. -/
def removeAllAux (pattern : List Char) : Nat → List Char → List Char
  | _, [] => []
  | 0, l => l
  | fuel + 1, c :: rest =>
    if isPrefixOfB pattern (c :: rest) && !pattern.isEmpty then
      removeAllAux pattern fuel ((c :: rest).drop pattern.length)
    else c :: removeAllAux pattern fuel rest

/-- Removes every (leftmost, non-overlapping) occurrence of a pattern,
Python `value.replace(pattern, "")`. -/
def removeAll (pattern l : List Char) : List Char :=
  removeAllAux pattern l.length l

/-! ## Identifier validator / normalizer (`src/tasks/extract.py`) -/

/-- Embeds `_normalize_isbn`: strips hyphens, spaces and colons, and
upper-cases the result. -/
def normalizeIsbn (value : String) : String :=
  upperStr ⟨removeAll [':'] (removeAll [' '] (removeAll ['-'] value.data))⟩

/-- Weighted sum over the first nine digits of an ISBN-10, as computed by
`_is_valid_isbn`: `sum(int(digit) * (10 - i) for i, digit in enumerate(isbn[:-1]))`. -/
def isbnSum10 (ds : List Char) : Nat :=
  (ds.enum.map (fun p => charDigitVal p.2 * (10 - p.1))).sum

/-- Check character on an ISBN-10 as computed by `_is_valid_isbn`:
`11 - (total % 11)` with 11 mapped to `'0'` and 10 mapped to `'X'`. -/
def isbn10CheckChar (total : Nat) : Char :=
  let cd := 11 - total % 11
  if cd = 11 then '0' else if cd = 10 then 'X' else Char.ofNat (48 + cd)

/-- Weighted sum for an ISBN-13 as computed by `_is_valid_isbn`:
`sum(int(digit) * (1 if i % 2 == 0 else 3) for i, digit in enumerate(isbn[:-1]))`. -/
def isbnSum13 (ds : List Char) : Nat :=
  (ds.enum.map (fun p => charDigitVal p.2 * (if p.1 % 2 = 0 then 1 else 3))).sum

/-- Embeds `_is_valid_isbn`: validates an ISBN-10 or ISBN-13 after
normalization; any other length is rejected. -/
def isValidIsbn (raw : String) : Bool :=
  let isbn := (normalizeIsbn raw).data
  if isbn.length = 10 then
    if (isbn.take 9).all Char.isDigit &&
        ((isbn.getLastD ' ').isDigit || isbn.getLastD ' ' == 'X') then
      isbn.getLastD ' ' == isbn10CheckChar (isbnSum10 (isbn.take 9))
    else false
  else if isbn.length = 13 then
    if isbn.all Char.isDigit then
      isbn.getLastD ' ' == Char.ofNat (48 + (10 - isbnSum13 (isbn.take 12) % 10) % 10)
    else false
  else false

/-! ## Specification rendering of the checksum rules (spec §4.1)

The following definitions restate, in the spec's own words, the acceptance
condition for a normalized identifier, to be compared with `isValidIsbn`. -/

/-- Check character of an ISBN-10 per the spec: weighted sum
Σ digit[i] × (10 − i) for i = 0..8, checksum 11 − (sum mod 11),
mapping 11 to `'0'` and 10 to `'X'`, else the digit itself. -/
def specCheckChar10 (ds : List Char) : Char :=
  let total := (ds.enum.map (fun p => charDigitVal p.2 * (10 - p.1))).sum
  let cd := 11 - total % 11
  if cd = 11 then '0' else if cd = 10 then 'X' else Char.ofNat (48 + cd)

/-- Check digit of an ISBN-13 per the spec: weighted sum
Σ digit[i] × (1 if i even else 3) for i = 0..11, checksum
(10 − (sum mod 10)) mod 10. -/
def specCheckDigit13 (ds : List Char) : Nat :=
  let total := (ds.enum.map (fun p => charDigitVal p.2 * (if p.1 % 2 = 0 then 1 else 3))).sum
  (10 - total % 10) % 10

/-- Acceptance condition of spec §4.1 on an already-normalized identifier:
either 10 characters with the stated ISBN-10 checksum, or 13 characters
with the stated ISBN-13 checksum; every other length is invalid. -/
def specAccept (s : String) : Bool :=
  let cs := s.data
  ((cs.length == 10) && (cs.take 9).all Char.isDigit &&
      ((cs.getLastD ' ').isDigit || cs.getLastD ' ' == 'X') &&
      (cs.getLastD ' ' == specCheckChar10 (cs.take 9)))
  || ((cs.length == 13) && cs.all Char.isDigit &&
      (cs.getLastD ' ' == Char.ofNat (48 + specCheckDigit13 (cs.take 12))))

/-- The code's check character and the spec's coincide. -/
theorem isbn10CheckChar_eq_spec (ds : List Char) :
    isbn10CheckChar (isbnSum10 ds) = specCheckChar10 ds := rfl

/-- C4: the identifier validator accepts a string iff its normalized form
satisfies the spec's ISBN-10 or ISBN-13 checksum condition; every other
length is rejected. -/
theorem isbn_validator_matches_spec (raw : String) :
    isValidIsbn raw = specAccept (normalizeIsbn raw) := by
  unfold isValidIsbn specAccept
  generalize (normalizeIsbn raw).data = cs
  by_cases h10 : cs.length = 10
  · rw [if_pos h10]
    have e10 : (cs.length == 10) = true := by simp [h10]
    have e13 : (cs.length == 13) = false := by simp [h10]
    rw [isbn10CheckChar_eq_spec]
    simp only [e10, e13, Bool.true_and, Bool.false_and, Bool.or_false]
    cases hA : (cs.take 9).all Char.isDigit &&
        ((cs.getLastD ' ').isDigit || cs.getLastD ' ' == 'X') with
    | false => simp [hA]
    | true => simp [hA]
  · by_cases h13 : cs.length = 13
    · rw [if_neg h10, if_pos h13]
      have e10 : (cs.length == 10) = false := by simp [h10]
      have e13 : (cs.length == 13) = true := by simp [h13]
      have espec : specCheckDigit13 (cs.take 12) =
          (10 - isbnSum13 (cs.take 12) % 10) % 10 := rfl
      rw [← espec]
      simp only [e10, e13, Bool.true_and, Bool.false_and, Bool.false_or]
      cases hA : cs.all Char.isDigit with
      | false => simp [hA]
      | true => simp [hA]
    · rw [if_neg h10, if_neg h13]
      have e10 : (cs.length == 10) = false := by simp [h10]
      have e13 : (cs.length == 13) = false := by simp [h13]
      simp [e10, e13]

/-! ## De-duplication preserving first-seen order

Python `list(dict.fromkeys(values))` keeps the first occurrence of every
value in encounter order; `dedupeAux` carries the set of already-seen
values. -/

/-- Worker for `dedupeKeepFirst`, skipping values already seen. -/
def dedupeAux : List String → List String → List String
  | _, [] => []
  | seen, x :: xs =>
    if x ∈ seen then dedupeAux seen xs else x :: dedupeAux (x :: seen) xs

/-- Embeds Python `list(dict.fromkeys(l))`. -/
def dedupeKeepFirst (l : List String) : List String := dedupeAux [] l

/-- Membership in the de-duplicated list: exactly the values of the input
that were not already seen. -/
theorem mem_dedupeAux {x : String} :
    ∀ (seen l : List String), x ∈ dedupeAux seen l ↔ x ∈ l ∧ x ∉ seen := by
  intro seen l
  induction l generalizing seen with
  | nil => simp [dedupeAux]
  | cons y ys ih =>
    by_cases hy : y ∈ seen
    · rw [dedupeAux, if_pos hy, ih, List.mem_cons]
      constructor
      · rintro ⟨h1, h2⟩; exact ⟨Or.inr h1, h2⟩
      · rintro ⟨h1 | h1, h2⟩
        · exact absurd (h1 ▸ hy) h2
        · exact ⟨h1, h2⟩
    · rw [dedupeAux, if_neg hy, List.mem_cons, List.mem_cons, ih]
      constructor
      · rintro (rfl | ⟨h1, h2⟩)
        · exact ⟨Or.inl rfl, hy⟩
        · exact ⟨Or.inr h1, fun hx => h2 (List.mem_cons_of_mem _ hx)⟩
      · rintro ⟨rfl | h1, h2⟩
        · exact Or.inl rfl
        · by_cases hxy : x = y
          · exact Or.inl hxy
          · exact Or.inr ⟨h1, by simp [List.mem_cons, hxy, h2]⟩

/-- The de-duplicated list has no duplicates. -/
theorem nodup_dedupeAux : ∀ (seen l : List String), (dedupeAux seen l).Nodup := by
  intro seen l
  induction l generalizing seen with
  | nil => simp [dedupeAux]
  | cons y ys ih =>
    by_cases hy : y ∈ seen
    · simpa [dedupeAux, if_pos hy] using ih seen
    · simp only [dedupeAux, if_neg hy, List.nodup_cons]
      refine ⟨fun hmem => ?_, ih _⟩
      exact ((mem_dedupeAux _ _).1 hmem).2 (List.mem_cons_self _ _)

/-- The de-duplicated list is a sublist of the input, so first-seen order
is preserved. -/
theorem sublist_dedupeAux :
    ∀ (seen l : List String), List.Sublist (dedupeAux seen l) l := by
  intro seen l
  induction l generalizing seen with
  | nil => simp [dedupeAux]
  | cons y ys ih =>
    by_cases hy : y ∈ seen
    · simpa [dedupeAux, if_pos hy] using (ih seen).cons y
    · simpa [dedupeAux, if_neg hy] using (ih (y :: seen)).cons₂ y

/-! ## Identifier discovery (`src/tasks/extract.py`)

The regular-expression engine is an external collaborator: a call site that
scans a text is embedded as the list of raw match strings the pattern
produced on that text. Everything the code does after matching —
stripping, normalizing, checksum-filtering, de-duplicating — is embedded
directly. -/

/-- Embeds `_find_isbns_in_text`, applied to the raw regex matches of a
text: strips and normalizes each match, keeps the checksum-valid ones, and
de-duplicates preserving first-seen order. -/
def findIsbnsInText (rawMatches : List String) : List String :=
  dedupeKeepFirst (rawMatches.filterMap (fun m =>
    let normalized := normalizeIsbn (stripStr m)
    if isValidIsbn normalized then some normalized else none))

/-- Result record of `extract_isbn` (`IsbnData` in `src/core/models.py`). -/
structure IsbnData where
  isbn : Option String := none
  isbn_source : String := "none"
  all_isbns : List String := []
  isbn_candidates : List String := []
  error : Option String := none
  deriving Repr, DecidableEq

/-- Result record of `extract_epub_metadata` field cleaning: each
descriptive field is absent, a single scalar, or an ordered list. -/
inductive MetaValue where
  | absent
  | scalar (value : String)
  | many (values : List String)
  deriving Repr, DecidableEq

/-- The eight raw `DC` metadata field value lists fetched by
`extract_epub_metadata` (first components of the `(value, attrs)` pairs
returned by the container collaborator). -/
structure MetaFields where
  title : List String := []
  creator : List String := []
  publisher : List String := []
  date : List String := []
  identifier : List String := []
  language : List String := []
  description : List String := []
  subjects : List String := []
  deriving Repr, DecidableEq

/-- Cleaned metadata record (`ExtractedMetadata` in `src/core/models.py`). -/
structure ExtractedMetadata where
  title : MetaValue := .absent
  creator : MetaValue := .absent
  publisher : MetaValue := .absent
  date : MetaValue := .absent
  identifier : MetaValue := .absent
  language : MetaValue := .absent
  description : MetaValue := .absent
  subjects : MetaValue := .absent
  deriving Repr, DecidableEq

/-- Result record of `extract_epub_metadata` (`ExtractionResult`). -/
structure ExtractionResult where
  metadata : Option ExtractedMetadata := none
  error : Option String := none
  deriving Repr, DecidableEq

/-- Result record of `extract_text_preview` (`TextPreviewData`). -/
structure TextPreviewData where
  text_preview : Option String := none
  extracted_chars : Nat := 0
  language : Option String := none
  error : Option String := none
  deriving Repr, DecidableEq

/-- Declared-cover data assembled by the `extract_cover` body once the
container collaborator has answered: the elected item (if any) with its
name, media type, raw bytes and decoded dimensions (dimensions are `none`
when the image could not be decoded). -/
structure CoverSel where
  filename : Option String := none
  media_type : Option String := none
  content : List Nat := []
  decoded : Option (Nat × Nat × Option String) := none
  deriving Repr, DecidableEq

/-- Result record of `extract_cover` (`CoverData` in `src/core/models.py`). -/
structure CoverData where
  has_cover : Bool := false
  cover_filename : Option String := none
  cover_media_type : Option String := none
  width : Option Nat := none
  height : Option Nat := none
  format : Option String := none
  error : Option String := none
  cover_content : Option (List Nat) := none
  deriving Repr, DecidableEq

/-- Collaborator outcomes for one book file. Each field stands for what the
container parser / regex engine delivered to the corresponding extraction
function; `.error e` means the underlying call raised an exception whose
description is `e`. -/
structure Book where
  /-- Values of `book.get_metadata("DC", "identifier")`; falsy entries are
  embedded as `""`. -/
  dcIdentifiers : Except String (List String) := .ok []
  /-- Per-document raw regex matches of the text of each document item, in
  document order (the code scans the first 5). -/
  docIsbnMatches : Except String (List (List String)) := .ok []
  /-- The eight raw metadata field value lists read by
  `extract_epub_metadata`. -/
  dcFields : Except String MetaFields := .ok {}
  /-- Per-document cleaned text chunks (`soup.get_text(" ", strip=True)`
  after script/style removal) in document order. -/
  docChunks : Except String (List String) := .ok []
  /-- Values of `book.get_metadata("DC", "language")`. -/
  dcLanguage : Except String (List String) := .ok []
  /-- Outcome of the declared-cover lookup performed by `extract_cover`:
  `none` when no cover item was elected. -/
  coverRaw : Except String (Option CoverSel) := .ok none
  deriving Repr

/-- Metadata-first scan of `extract_isbn`: the first identifier field that
mentions "isbn" (case-insensitively) or is itself checksum-valid, and
whose cleaned form is checksum-valid, wins. -/
def findMetaIsbn : List String → Option String
  | [] => none
  | identifier :: rest =>
    if identifier = "" then findMetaIsbn rest
    else if containsSub (lowerStr identifier) "isbn" || isValidIsbn identifier then
      let cleanIsbn := normalizeIsbn (stripStr ⟨removeAll "urn:isbn:".data identifier.data⟩)
      if isValidIsbn cleanIsbn then some cleanIsbn else findMetaIsbn rest
    else findMetaIsbn rest

/-- Embeds `extract_isbn`: metadata first, then a scan of the first five
document items; a 13-character identifier is preferred as the chosen one
for content provenance; any exception is reported in `error`. -/
def extractIsbn (book : Book) : IsbnData :=
  match book.dcIdentifiers with
  | .error e => { error := some e }
  | .ok identifiers =>
    match findMetaIsbn identifiers with
    | some cleanIsbn =>
      { isbn := some cleanIsbn, isbn_source := "metadata",
        all_isbns := [cleanIsbn], isbn_candidates := [cleanIsbn] }
    | none =>
      match book.docIsbnMatches with
      | .error e => { error := some e }
      | .ok docs =>
        let allFound := (docs.take 5).foldl
          (fun acc ms => acc ++ findIsbnsInText ms) []
        if allFound = [] then {}
        else
          let uniqueIsbns := dedupeKeepFirst allFound
          let isbn13 := uniqueIsbns.find? (fun i => i.data.length = 13)
          let chosen := match isbn13 with
            | some i => i
            | none => uniqueIsbns.headD ""
          { isbn := some chosen, isbn_source := "content",
            all_isbns := uniqueIsbns, isbn_candidates := uniqueIsbns }

/-- Field cleaning of `extract_epub_metadata`: empty list of values means
the field is dropped, a single value becomes a scalar, several values stay
a list. -/
def cleanField : List String → MetaValue
  | [] => .absent
  | [v] => .scalar v
  | vs => .many vs

/-- Embeds `extract_epub_metadata`. -/
def extractEpubMetadata (book : Book) : ExtractionResult :=
  match book.dcFields with
  | .error e => { error := some e }
  | .ok f =>
    { metadata := some
        { title := cleanField f.title, creator := cleanField f.creator,
          publisher := cleanField f.publisher, date := cleanField f.date,
          identifier := cleanField f.identifier, language := cleanField f.language,
          description := cleanField f.description, subjects := cleanField f.subjects } }

/-- Text-accumulation loop of `extract_text_preview`: stops once the
character budget is reached, truncates the chunk that crosses the budget,
and counts the full (untruncated) chunk lengths. -/
def previewLoop (maxChars : Nat) : List String → Nat → List String
  | [], _ => []
  | chunk :: rest, currentLength =>
    if currentLength ≥ maxChars then []
    else if chunk = "" then previewLoop maxChars rest currentLength
    else ⟨chunk.data.take (maxChars - currentLength)⟩ ::
      previewLoop maxChars rest (currentLength + chunk.data.length)

/-- Embeds `extract_text_preview`. -/
def extractTextPreview (book : Book) (maxChars : Nat) : TextPreviewData :=
  match book.docChunks with
  | .error e => { error := some e }
  | .ok chunks =>
    let fullText := joinSep "" (previewLoop maxChars chunks 0)
    let preview : String := ⟨fullText.data.take maxChars⟩
    match book.dcLanguage with
    | .error e => { error := some e }
    | .ok langMeta =>
      { text_preview := some preview, extracted_chars := preview.data.length,
        language := langMeta.head? }

/-- Embeds `extract_cover`: no elected item means no cover; an elected item
with an SVG media type or filename is rejected; otherwise the item's bytes
and (possibly undecodable) dimensions are reported; any exception is
reported in `error`. -/
def extractCover (book : Book) : CoverData :=
  match book.coverRaw with
  | .error e => { has_cover := false, error := some e }
  | .ok none => { has_cover := false }
  | .ok (some sel) =>
    if (match sel.media_type with
        | some m => containsSub (lowerStr m) "svg"
        | none => false) then { has_cover := false }
    else if (match sel.filename with
        | some f => endsWithStr (lowerStr f) ".svg"
        | none => false) then { has_cover := false }
    else
      { has_cover := true, cover_filename := sel.filename,
        cover_media_type := sel.media_type,
        cover_content := some sel.content,
        width := sel.decoded.map (fun d => d.1),
        height := sel.decoded.map (fun d => d.2.1),
        format := sel.decoded.bind (fun d => d.2.2) }

/-! ## Cover image selector (`extract_cover_images` in `src/tasks/extract.py`)

The container parser and the HTML/image decoders are collaborators: an
embedded image item carries the outcome of `item.get_content()` (which may
raise), the declared name and media type, and the outcome of decoding the
bytes (`none` when `PIL` could not parse the image). A document item is
embedded as the list of `src` attributes its `<img>` tags carry. -/

/-- One embedded image item as `extract_cover_images` sees it. -/
structure ImgItem where
  /-- Outcome of `item.get_content()`: the raw bytes, or the exception. -/
  readOk : Except String (List Nat) := .ok []
  /-- `getattr(item, "file_name", None)`. -/
  file_name : Option String := none
  /-- `getattr(item, "media_type", None)`. -/
  media_type : Option String := none
  /-- Outcome of `PIL.Image.open`: width, height and detected format, or
  `none` when decoding failed. -/
  decoded : Option (Nat × Nat × Option String) := none
  deriving Repr

/-- One entry of the candidate list built by `extract_cover_images`
(the dict with filename, media type, dimensions, format and bytes; the
`primary` key is added afterwards on the elected head). -/
structure ImgPayload where
  filename : String
  media_type : Option String
  width : Option Nat
  height : Option Nat
  format : Option String
  content : List Nat
  primary : Bool := false
  deriving Repr, DecidableEq

/-- Python truthiness of an optional integer (`None` and `0` are falsy). -/
def optTruthyNat : Option Nat → Bool
  | some n => n != 0
  | none => false

/-- Portion of a string before the first occurrence of a marker character,
Python `s.split(marker)[0]`. -/
def beforeChar (marker : Char) (s : String) : String :=
  ⟨s.data.takeWhile (fun c => c != marker)⟩

/-- Base filename of a path, Python `Path(s).name`. -/
def baseName (s : String) : String :=
  ⟨(s.data.reverse.takeWhile (fun c => c != '/')).reverse⟩

/-- Association-list read, Python `dict.get`. -/
def lookupGet (m : List (String × Nat)) (key : String) : Option Nat :=
  (m.find? (fun p => p.1 = key)).map (fun p => p.2)

/-- Association-list write, Python `dict[key] = value`. -/
def lookupSet (m : List (String × Nat)) (key : String) (value : Nat) :
    List (String × Nat) :=
  if (m.find? (fun p => p.1 = key)).isSome then
    m.map (fun p => if p.1 = key then (key, value) else p)
  else m ++ [(key, value)]

/-- Builds the appearance-order hint map of `extract_cover_images` from the
`src` attributes of the first three document items:
`image_lookup[name] = min(order, image_lookup.get(name, order))`. -/
def buildImageLookup (docs : List (List String)) : List (String × Nat) :=
  ((docs.take 3).enum).foldl
    (fun m entry =>
      entry.2.foldl
        (fun m src =>
          if src = "" then m
          else
            let cleaned := beforeChar '?' (beforeChar '#' src)
            let normalized := baseName cleaned
            lookupSet m normalized
              (min entry.1 ((lookupGet m normalized).getD entry.1)))
        m)
    []

/-- SVG test on the declared media type, as `extract_cover_images` performs
it (`cover_media_type and "svg" in cover_media_type.lower()`). -/
def mediaSvgB (item : ImgItem) : Bool :=
  match item.media_type with
  | some m => containsSub (lowerStr m) "svg"
  | none => false

/-- Normalized base filename of an item
(`Path(cover_filename).name if cover_filename else ""`). -/
def normalizedNameOf (item : ImgItem) : String :=
  let coverFilename := item.file_name.getD ""
  if coverFilename = "" then "" else baseName coverFilename

/-- SVG test on the filename (`normalized_name.lower().endswith(".svg")`). -/
def nameSvgB (item : ImgItem) : Bool :=
  endsWithStr (lowerStr (normalizedNameOf item)) ".svg"

/-- The candidate entry built for a surviving item whose bytes are `bs`. -/
def mkImgPayload (item : ImgItem) (bs : List Nat) : ImgPayload :=
  { filename := item.file_name.getD "",
    media_type := item.media_type,
    width := item.decoded.map (fun d => d.1),
    height := item.decoded.map (fun d => d.2.1),
    format := item.decoded.bind (fun d => d.2.2),
    content := bs }

/-- The size-threshold drop test of `extract_cover_images`:
`width and height and (width < 300 or height < 300)` under Python
truthiness (an unknown or zero dimension is falsy). -/
def sizeDropB (item : ImgItem) : Bool :=
  optTruthyNat (item.decoded.map (fun d => d.1)) &&
  optTruthyNat (item.decoded.map (fun d => d.2.1)) &&
  (decide ((item.decoded.map (fun d => d.1)).getD 0 < 300) ||
    decide ((item.decoded.map (fun d => d.2.1)).getD 0 < 300))

/-- Per-item loop of `extract_cover_images`: skips unreadable items, SVG
items, and items failing the size test; pairs each survivor with its
appearance-order priority (`none` standing for `float("inf")`). -/
def processItems (lookup : List (String × Nat)) :
    List ImgItem → List (Option Nat × ImgPayload)
  | [] => []
  | item :: rest =>
    match item.readOk with
    | .error _ => processItems lookup rest
    | .ok bs =>
      if mediaSvgB item then processItems lookup rest
      else if nameSvgB item then processItems lookup rest
      else if sizeDropB item then processItems lookup rest
      else
        (lookupGet lookup (normalizedNameOf item), mkImgPayload item bs) ::
          processItems lookup rest

/-- Priority order with `none` as `float("inf")`: the sort key is
`(priority, -(width or 0))` — ascending priority, then descending width. -/
def pairLe (x y : Option Nat × ImgPayload) : Bool :=
  match x.1, y.1 with
  | _, none =>
    match x.1 with
    | none => decide ((y.2.width.getD 0) ≤ (x.2.width.getD 0))
    | some _ => true
  | none, some _ => false
  | some a, some b =>
    if a = b then decide ((y.2.width.getD 0) ≤ (x.2.width.getD 0)) else decide (a < b)

/-- Stable insertion of one element into an already-sorted list: the new
element goes after every element it does not strictly precede. -/
def insertSorted (le : α → α → Bool) (x : α) : List α → List α
  | [] => [x]
  | y :: ys => if le y x then y :: insertSorted le x ys else x :: y :: ys

/-- Stable sort (the semantics of Python `list.sort` with a key). -/
def stableSort (le : α → α → Bool) (l : List α) : List α :=
  l.foldl (fun acc x => insertSorted le x acc) []

/-- The primary election of `extract_cover_images`: the head of the sorted
candidate list gets `primary := True`; the flag is visible both in the
returned list and in the returned primary, which alias in the source. -/
def flagPrimaryHead : List ImgPayload → List ImgPayload × Option ImgPayload
  | [] => ([], none)
  | p :: rest => ({ p with primary := true } :: rest, some { p with primary := true })

/-- Embeds `extract_cover_images`: builds the hint map, filters and decodes
the embedded items, sorts by `(priority, -width)`, and elects the head of
the sorted list as primary. -/
def extractCoverImages (docs : List (List String)) (items : List ImgItem) :
    List ImgPayload × Option ImgPayload :=
  let lookup := buildImageLookup docs
  let ordered := stableSort pairLe (processItems lookup items)
  flagPrimaryHead (ordered.map (fun p => p.2))

/-! ## Workflow response contract (`src/tasks/integrate.py`)

The raw JSON reply of the enrichment service is embedded as a `JVal`;
an object is a key/value association list (Python dicts have no duplicate
keys, so lookup takes the first binding). -/

/-- A JSON value. -/
inductive JVal where
  | null
  | bool (b : Bool)
  | num (n : Int)
  | str (s : String)
  | arr (items : List JVal)
  | obj (fields : List (String × JVal))

/-- Object field lookup, Python `result.get(key)` (missing key gives
`none`; note a JSON `null` value gives `some .null`). -/
def objGet : List (String × JVal) → String → Option JVal
  | [], _ => none
  | (k, v) :: rest, key => if k = key then some v else objGet rest key

/-- Key-membership test, Python `key in result`. -/
def hasKey (fields : List (String × JVal)) (key : String) : Bool :=
  (objGet fields key).isSome

/-- Object field write, Python `result[key] = value`. -/
def setKey (fields : List (String × JVal)) (key : String) (value : JVal) :
    List (String × JVal) :=
  if hasKey fields key then
    fields.map (fun p => if p.1 = key then (key, value) else p)
  else fields ++ [(key, value)]

/-- Python truthiness of a JSON value. -/
def jTruthy : JVal → Bool
  | .null => false
  | .bool b => b
  | .num n => n != 0
  | .str s => s != ""
  | .arr items => !items.isEmpty
  | .obj fields => !fields.isEmpty

/-- Python truthiness of an optional JSON value (`not x` on the result of
`dict.get`). -/
def jOptTruthy : Option JVal → Bool
  | some v => jTruthy v
  | none => false

/-- The tail of `_validate_workflow_response`: `errors` defaults to the
empty list when absent or `null`, and must be an array when provided. -/
def checkErrorsField (fields : List (String × JVal)) :
    Except String (List (String × JVal)) :=
  match objGet fields "errors" with
  | none => .ok (setKey fields "errors" (.arr []))
  | some .null => .ok (setKey fields "errors" (.arr []))
  | some (.arr _) => .ok fields
  | some _ => .error "\x27errors\x27 must be an array when provided"

/-- Embeds `_validate_workflow_response`: `.error m` models the function
raising `ValueError(m)`, `.ok fields` models it returning the (possibly
errors-defaulted) response object. -/
def validateWorkflowResponse (result : JVal) (expectedSource : String) :
    Except String (List (String × JVal)) :=
  match result with
  | .obj fields =>
    if !hasKey fields "success" || !hasKey fields "source" then
      .error "Workflow response must include \x27success\x27 and \x27source\x27"
    else
      match (objGet fields "success").getD .null with
      | .bool success =>
        match (objGet fields "source").getD .null with
        | .str source =>
          if source ≠ expectedSource then
            .error ("Unexpected \x27source\x27 value: expected \x27" ++
              expectedSource ++ "\x27, got \x27" ++ source ++ "\x27")
          else if success then
            match objGet fields "payload" with
            | some (.obj payload) =>
              if jOptTruthy (objGet payload "title") &&
                  jOptTruthy (objGet payload "author") then
                checkErrorsField fields
              else
                .error "Successful workflow response must include \x27payload.title\x27 and \x27payload.author\x27"
            | _ =>
              .error "Successful workflow response must include a \x27payload\x27 object"
          else
            match objGet fields "payload" with
            | none => checkErrorsField fields
            | some .null => checkErrorsField fields
            | some (.obj _) => checkErrorsField fields
            | some _ => .error "\x27payload\x27 must be an object when provided"
        | _ => .error "\x27source\x27 must be a string"
      | _ => .error "\x27success\x27 must be a boolean"
  | _ => .error "Workflow response must be a JSON object"

/-- Embeds `_build_error_response`: the synthesized failure response, with
the raw reply attached when available. -/
def buildErrorResponse (source message : String) (raw : Option JVal) : JVal :=
  .obj ([("success", .bool false), ("source", .str source),
    ("payload", .obj []), ("errors", .arr [.str message])] ++
    (match raw with | some r => [("raw", r)] | none => []))

/-- The error message of a failed validation (`""` when it succeeded). -/
def validationErrMsg : Except String (List (String × JVal)) → String
  | .error m => m
  | .ok _ => ""

/-- Modelled from the spec: the delivery glue of the single consolidated
enrichment call (`call_n8n_sortebook_workflow`, absent from the sources;
its three sibling clients in `src/tasks/integrate.py` all follow this
shape). A reply that parses as JSON is validated; a `ValueError` from
validation is turned into the synthesized failure response with the raw
reply preserved (spec §4.4). -/
def handleWorkflowResult (raw : JVal) (expectedSource : String) : JVal :=
  match validateWorkflowResponse raw expectedSource with
  | .ok fields => .obj fields
  | .error m => buildErrorResponse expectedSource m (some raw)

/-! ## Resumable-state filter (`src/core/state.py`)

`RedisStateManager.filter_processed_files`: the Redis client is embedded as
a connection flag plus the outcome of the `smembers` call (`.error e`
modelling a `RedisError`). -/

/-- Embeds `filter_processed_files`. -/
def filterProcessedFiles (clientConnected : Bool)
    (smembers : Except String (List String)) (allFiles : List String) :
    List String :=
  if !clientConnected then allFiles
  else
    match smembers with
    | .error _ => allFiles
    | .ok processedFiles =>
      if processedFiles = [] then allFiles
      else allFiles.filter (fun f => !(processedFiles.contains f))

/-! ## Pipeline state machine (`src/core/pipeline.py`)

`run_pipeline` is embedded as a function of the outcomes of its
collaborator calls: the hash-and-lookup step, the provisional insert, the
local extraction, the duplicate-identifier lookup, and the enrichment
call. `.error e` models the call raising an exception described by `e`.
The persistence writes the run performs are recorded in the outcome. -/

/-- The parsed enrichment payload (`BaseWorkflowPayload`). -/
structure WorkflowPayloadM where
  title : String
  author : String
  deriving Repr, DecidableEq

/-- The parsed enrichment response (`WorkflowResponse`). -/
structure WorkflowResponseM where
  success : Bool
  source : String
  payload : Option WorkflowPayloadM := none
  errors : List String := []
  deriving Repr, DecidableEq

/-- Python truthiness of an optional string (`None` and `""` are falsy). -/
def optTruthyStr : Option String → Bool
  | some s => s != ""
  | none => false

/-- Data `_extract_local_data` leaves in the pipeline state that the later
steps read: the identifier data and, per OCR entry with truthy text, the
raw regex matches of that text (`none` marks an entry whose text is falsy
and is skipped). -/
structure LocalData where
  isbnData : IsbnData := {}
  ocrEntries : List (Option (List String)) := []
  deriving Repr

/-- Embeds the `_dedupe` helper of `_build_n8n_payload`: drops falsy
values, de-duplicates preserving first-seen order. -/
def pipelineDedupe (values : List String) : List String :=
  dedupeKeepFirst (values.filter (fun v => v != ""))

/-- Embeds `_collect_ocr_isbns`: identifiers found in the recognized text
of the OCR entries, de-duplicated. -/
def collectOcrIsbns (entries : List (Option (List String))) : List String :=
  pipelineDedupe (entries.foldl
    (fun found e =>
      match e with
      | none => found
      | some ms => found ++ findIsbnsInText ms)
    [])

/-- The three identifier buckets of the enrichment request. -/
structure IsbnBuckets where
  metadata : List String := []
  text : List String := []
  ocr : List String := []
  deriving Repr, DecidableEq

/-- Distributes a de-duplicated value list into a bucket, skipping values
already seen in earlier buckets; returns the bucket and the grown seen
set. -/
def addBucketVals (seen : List String) : List String → List String × List String
  | [] => ([], seen)
  | v :: vs =>
    if v ∈ seen then addBucketVals seen vs
    else
      let (bucket, seenOut) := addBucketVals (v :: seen) vs
      (v :: bucket, seenOut)

/-- Embeds `_build_isbn_payload`: the metadata bucket holds the single
metadata-provenance identifier, the text bucket holds the content-scan
candidates, the ocr bucket holds OCR finds; cross-bucket de-duplication
gives priority to metadata, then text, then ocr. -/
def buildIsbnPayload (isbnData : IsbnData) (ocrIsbns : List String) :
    IsbnBuckets :=
  let metadataIsbns : List String :=
    if isbnData.isbn_source = "metadata" && optTruthyStr isbnData.isbn then
      [isbnData.isbn.getD ""]
    else []
  let textIsbns : List String :=
    if !(isbnData.isbn_source = "metadata" && optTruthyStr isbnData.isbn) &&
        isbnData.isbn_source = "content" then
      isbnData.all_isbns
    else []
  let metadataRes := addBucketVals [] (pipelineDedupe metadataIsbns)
  let textRes := addBucketVals metadataRes.2 (pipelineDedupe textIsbns)
  let ocrRes := addBucketVals textRes.2 (pipelineDedupe ocrIsbns)
  { metadata := metadataRes.1, text := textRes.1, ocr := ocrRes.1 }

/-- The enrichment request fields relevant to the identifier contract
(`_build_n8n_payload`). -/
structure N8nPayload where
  filename : String
  isbn : IsbnBuckets
  deriving Repr, DecidableEq

/-- Embeds the identifier part of `_build_n8n_payload`. -/
def buildN8nPayload (filename : String) (localData : LocalData) : N8nPayload :=
  { filename := filename,
    isbn := buildIsbnPayload localData.isbnData
      (collectOcrIsbns localData.ocrEntries) }

/-- One persistence write performed by a pipeline run
(`create_book_entry` / `update_book_entry`). -/
inductive DbWrite where
  | insertPending (bookId : Nat)
  | updateEntry (bookId : Nat)
  deriving Repr, DecidableEq

/-- Collaborator outcomes for one `run_pipeline` invocation. -/
structure PipelineEnv where
  /-- `get_file_hash` plus `find_book_by_hash`: whether a persisted record
  with the same content hash exists (or the exception either raised). -/
  hashStep : Except String Bool := .ok false
  /-- `create_book_entry`: the id of the provisional `pending` row. -/
  insertStep : Except String Nat := .ok 0
  /-- `_extract_local_data`. -/
  extractStep : Except String LocalData := .ok {}
  /-- `find_book_by_isbn`: whether a `processed` record with the same
  identifier exists (only consulted when an identifier was found). -/
  isbnLookupStep : Except String Bool := .ok false
  /-- `_call_n8n_workflow`: the parsed response, or the exception the
  transport / validation raised. -/
  n8nStep : Except String WorkflowResponseM := .ok { success := false, source := "" }
  deriving Repr

/-- Outcome of one `run_pipeline` invocation: the final status and fields
recorded by the finalization step, the persistence writes performed, and
whether extraction / the enrichment call were attempted. -/
structure RunOutcome where
  status : String
  errorMessage : Option String := none
  finalTitle : Option String := none
  finalAuthor : Option String := none
  choiceSource : Option String := none
  writes : List DbWrite := []
  extractionAttempted : Bool := false
  n8nCalled : Bool := false
  deriving Repr, DecidableEq

/-- The enrichment stage of `run_pipeline` (the `final_status == "pending"`
branch): reached only when no duplicate was detected; both persistence
writes have happened by the time it finalizes. -/
def n8nStage (env : PipelineEnv) (bookId : Nat) : RunOutcome :=
  let writes : List DbWrite := [.insertPending bookId, .updateEntry bookId]
  match env.n8nStep with
  | .error e =>
    { status := "failed", errorMessage := some e, writes := writes,
      extractionAttempted := true, n8nCalled := true }
  | .ok resp =>
    if resp.success && resp.payload.isSome then
      { status := "processed",
        finalTitle := resp.payload.map (fun p => p.title),
        finalAuthor := resp.payload.map (fun p => p.author),
        choiceSource := some (if resp.source = "" then "sortebook_v5" else resp.source),
        writes := writes, extractionAttempted := true, n8nCalled := true }
    else
      let joined := joinSep " ; " resp.errors
      { status := "failed",
        errorMessage := some (if joined = "" then
          "SortBook workflow n8n a retourné une erreur" else joined),
        writes := writes, extractionAttempted := true, n8nCalled := true }

/-- Embeds `run_pipeline`: hash dedup short-circuits before the insert;
the top-level handler catches any step exception into status `failed`;
the finalization step updates the persisted row only when the provisional
insert happened (`if state.book_id`). -/
def runPipeline (env : PipelineEnv) : RunOutcome :=
  match env.hashStep with
  | .error e => { status := "failed", errorMessage := some e }
  | .ok true => { status := "duplicate_hash" }
  | .ok false =>
    match env.insertStep with
    | .error e => { status := "failed", errorMessage := some e }
    | .ok bookId =>
      match env.extractStep with
      | .error e =>
        { status := "failed", errorMessage := some e,
          writes := [.insertPending bookId, .updateEntry bookId],
          extractionAttempted := true }
      | .ok localData =>
        if optTruthyStr localData.isbnData.isbn then
          match env.isbnLookupStep with
          | .error e =>
            { status := "failed", errorMessage := some e,
              writes := [.insertPending bookId, .updateEntry bookId],
              extractionAttempted := true }
          | .ok true =>
            { status := "duplicate_isbn",
              errorMessage := some "ISBN déjà traité",
              writes := [.insertPending bookId, .updateEntry bookId],
              extractionAttempted := true }
          | .ok false => n8nStage env bookId
        else n8nStage env bookId

/-- The per-file loop of `main_process` (`src/main.py`): every file yields
an outcome, exceptions never escape a single file's processing. -/
def batchRun (envs : List PipelineEnv) : List RunOutcome :=
  envs.map runPipeline

/-! ## Pipeline theorems -/

/-- A run whose content hash matches an already-persisted record. -/
def envHashDup : PipelineEnv := { hashStep := .ok true }

/-- C1 counterexample: a run that finds a persisted record with the same
content hash does terminate with status `duplicate_hash` and attempts no
extraction, but it performs zero persistence writes — not the one terminal
write the claim asserts (the `finally` update is guarded by `book_id`,
which was never set). -/
theorem dup_hash_single_write_refuted :
    (runPipeline envHashDup).status = "duplicate_hash" ∧
    (runPipeline envHashDup).extractionAttempted = false ∧
    ¬ (runPipeline envHashDup).writes.length = 1 := by decide

/-- C1 (amended): for every run whose content hash matches an
already-persisted record, the pipeline terminates with final status
`duplicate_hash`, attempts no extraction, and performs no persistence
write at all — both the provisional `pending` insert and the terminal
update are skipped. -/
theorem dup_hash_no_extraction_no_writes (env : PipelineEnv)
    (h : env.hashStep = .ok true) :
    runPipeline env = { status := "duplicate_hash" } := by
  simp [runPipeline, h]

/-- Witness for the amended C1 at a concrete environment. -/
theorem dup_hash_no_extraction_no_writes_witness :
    envHashDup.hashStep = .ok true ∧
    runPipeline envHashDup = { status := "duplicate_hash" } :=
  ⟨rfl, dup_hash_no_extraction_no_writes envHashDup rfl⟩

/-- C2: a run that is neither a hash duplicate nor an identifier duplicate
and receives a successful enrichment response carrying a payload ends with
status `processed`, its final title and author taken from the payload and
its choice source from the response (validated responses always carry the
non-empty expected source tag). -/
theorem processed_takes_payload (env : PipelineEnv) (bookId : Nat)
    (localData : LocalData) (resp : WorkflowResponseM) (p : WorkflowPayloadM)
    (h1 : env.hashStep = .ok false) (h2 : env.insertStep = .ok bookId)
    (h3 : env.extractStep = .ok localData)
    (h4 : optTruthyStr localData.isbnData.isbn = false ∨
      env.isbnLookupStep = .ok false)
    (h5 : env.n8nStep = .ok resp) (h6 : resp.success = true)
    (h7 : resp.payload = some p) (h8 : resp.source ≠ "") :
    (runPipeline env).status = "processed" ∧
    (runPipeline env).finalTitle = some p.title ∧
    (runPipeline env).finalAuthor = some p.author ∧
    (runPipeline env).choiceSource = some resp.source := by
  have key : runPipeline env = n8nStage env bookId := by
    rcases h4 with h4 | h4
    · simp [runPipeline, h1, h2, h3, h4]
    · by_cases ht : optTruthyStr localData.isbnData.isbn
      · simp [runPipeline, h1, h2, h3, ht, h4]
      · simp [runPipeline, h1, h2, h3, ht]
  rw [key]
  simp [n8nStage, h5, h6, h7, h8]

/-- The spec's end-to-end successful enrichment reply. -/
def respProcessed : WorkflowResponseM :=
  { success := true, source := "svc", payload := some { title := "T", author := "A" } }

/-- A run reaching a successful enrichment response. -/
def envProcessed : PipelineEnv :=
  { hashStep := .ok false, insertStep := .ok 7, extractStep := .ok {},
    isbnLookupStep := .ok false, n8nStep := .ok respProcessed }

/-- Witness for C2 at a concrete environment: the spec's end-to-end
scenario with reply source `svc`, title `T`, author `A`. -/
theorem processed_takes_payload_witness :
    (runPipeline envProcessed).status = "processed" ∧
    (runPipeline envProcessed).finalTitle = some "T" ∧
    (runPipeline envProcessed).finalAuthor = some "A" ∧
    (runPipeline envProcessed).choiceSource = some "svc" :=
  processed_takes_payload envProcessed 7 {} respProcessed
    { title := "T", author := "A" }
    rfl rfl rfl (Or.inl rfl) rfl rfl rfl (by decide)

/-- C3: an exception raised by any of pipeline steps 2–5 — the provisional
insert, local extraction, the duplicate-identifier lookup, or the
enrichment call — is caught at the pipeline's top level, producing final
status `failed` with the error message equal to the failure's description;
and the surrounding batch always receives one outcome per file, so no
exception from those steps escapes a per-file run. -/
theorem step_failures_caught :
    (∀ (env : PipelineEnv) (e : String),
      env.hashStep = .ok false → env.insertStep = .error e →
      runPipeline env = { status := "failed", errorMessage := some e }) ∧
    (∀ (env : PipelineEnv) (bookId : Nat) (e : String),
      env.hashStep = .ok false → env.insertStep = .ok bookId →
      env.extractStep = .error e →
      runPipeline env =
        { status := "failed", errorMessage := some e,
          writes := [.insertPending bookId, .updateEntry bookId],
          extractionAttempted := true }) ∧
    (∀ (env : PipelineEnv) (bookId : Nat) (localData : LocalData) (e : String),
      env.hashStep = .ok false → env.insertStep = .ok bookId →
      env.extractStep = .ok localData →
      optTruthyStr localData.isbnData.isbn = true →
      env.isbnLookupStep = .error e →
      runPipeline env =
        { status := "failed", errorMessage := some e,
          writes := [.insertPending bookId, .updateEntry bookId],
          extractionAttempted := true }) ∧
    (∀ (env : PipelineEnv) (bookId : Nat) (localData : LocalData) (e : String),
      env.hashStep = .ok false → env.insertStep = .ok bookId →
      env.extractStep = .ok localData →
      (optTruthyStr localData.isbnData.isbn = false ∨
        env.isbnLookupStep = .ok false) →
      env.n8nStep = .error e →
      runPipeline env =
        { status := "failed", errorMessage := some e,
          writes := [.insertPending bookId, .updateEntry bookId],
          extractionAttempted := true, n8nCalled := true }) ∧
    (∀ envs : List PipelineEnv, (batchRun envs).length = envs.length) := by
  refine ⟨?_, ?_, ?_, ?_, ?_⟩
  · intro env e h1 h2
    simp [runPipeline, h1, h2]
  · intro env bookId e h1 h2 h3
    simp [runPipeline, h1, h2, h3]
  · intro env bookId localData e h1 h2 h3 ht h4
    simp [runPipeline, h1, h2, h3, ht, h4]
  · intro env bookId localData e h1 h2 h3 h4 h5
    rcases h4 with h4 | h4
    · simp [runPipeline, h1, h2, h3, h4, n8nStage, h5]
    · by_cases ht : optTruthyStr localData.isbnData.isbn
      · simp [runPipeline, h1, h2, h3, ht, h4, n8nStage, h5]
      · simp [runPipeline, h1, h2, h3, ht, n8nStage, h5]
  · intro envs
    simp [batchRun]

/-- A run whose provisional insert raises. -/
def envInsertFail : PipelineEnv :=
  { hashStep := .ok false, insertStep := .error "insert boom" }

/-- Witness for C3 at a concrete environment: a failing provisional insert
is caught into status `failed` carrying its description. -/
theorem step_failures_caught_witness :
    runPipeline envInsertFail = { status := "failed", errorMessage := some "insert boom" } :=
  step_failures_caught.1 envInsertFail "insert boom" rfl rfl

/-- C10: in every enrichment request payload built by the pipeline, the
`metadata` and `text` identifier buckets are mutually exclusive — the
single provenance value of the extracted identifier data routes the
candidates into at most one of the two. -/
theorem isbn_buckets_metadata_text_exclusive (filename : String)
    (localData : LocalData) :
    (buildN8nPayload filename localData).isbn.metadata = [] ∨
    (buildN8nPayload filename localData).isbn.text = [] := by
  unfold buildN8nPayload buildIsbnPayload
  by_cases hc : (localData.isbnData.isbn_source = "metadata" &&
      optTruthyStr localData.isbnData.isbn) = true
  · right
    simp only [hc, Bool.not_true, Bool.false_and, if_false, if_true]
    rfl
  · left
    simp only [hc, if_false]
    rfl

/-! ## Identifier discovery theorems -/

/-- Every string kept by the free-text scanner passed the checksum
validator. -/
theorem valid_of_mem_findIsbnsInText (ms : List String) (x : String)
    (hx : x ∈ findIsbnsInText ms) : isValidIsbn x = true := by
  unfold findIsbnsInText at hx
  have hx' := ((mem_dedupeAux _ _).1 hx).1
  rcases List.mem_filterMap.mp hx' with ⟨m, _, hsome⟩
  dsimp only at hsome
  split at hsome
  · cases hsome
    assumption
  · cases hsome

/-- A metadata identifier elected by `extract_isbn` passed the checksum
validator (it is guarded by `_is_valid_isbn(clean_isbn)`). -/
theorem findMetaIsbn_valid :
    ∀ (ids : List String) (c : String), findMetaIsbn ids = some c →
      isValidIsbn c = true := by
  intro ids
  induction ids with
  | nil => intro c h; simp [findMetaIsbn] at h
  | cons i rest ih =>
    intro c h
    unfold findMetaIsbn at h
    split at h
    · exact ih c h
    · split at h
      · dsimp only at h
        split at h
        · cases h
          assumption
        · exact ih c h
      · exact ih c h

/-- Values accumulated over the scanned documents all passed the checksum
validator. -/
theorem valid_of_mem_scanFold (x : String) :
    ∀ (docs : List (List String)) (acc : List String),
      (∀ y ∈ acc, isValidIsbn y = true) →
      x ∈ docs.foldl (fun a ms => a ++ findIsbnsInText ms) acc →
      isValidIsbn x = true := by
  intro docs
  induction docs with
  | nil => intro acc hacc hx; exact hacc x hx
  | cons d ds ih =>
    intro acc hacc hx
    refine ih (acc ++ findIsbnsInText d) ?_ hx
    intro y hy
    rcases List.mem_append.mp hy with h | h
    · exact hacc y h
    · exact valid_of_mem_findIsbnsInText d y h

/-- Shape of every `extract_isbn` result: either an error report with all
other fields at their defaults, or an error-free record whose candidate
list is checksum-valid throughout, duplicate-free, and equal to
`all_isbns`. -/
theorem extractIsbn_shape (book : Book) :
    (∃ e, extractIsbn book = { error := some e }) ∨
    ((extractIsbn book).error = none ∧
      (∀ x ∈ (extractIsbn book).isbn_candidates, isValidIsbn x = true) ∧
      (extractIsbn book).isbn_candidates.Nodup ∧
      (extractIsbn book).all_isbns = (extractIsbn book).isbn_candidates) := by
  cases hbi : book.dcIdentifiers with
  | error e => exact Or.inl ⟨e, by simp [extractIsbn, hbi]⟩
  | ok ids =>
    cases hm : findMetaIsbn ids with
    | some c =>
      right
      have hval := findMetaIsbn_valid ids c hm
      have hrec : extractIsbn book =
          { isbn := some c, isbn_source := "metadata",
            all_isbns := [c], isbn_candidates := [c] } := by
        simp [extractIsbn, hbi, hm]
      rw [hrec]
      refine ⟨rfl, ?_, by simp, rfl⟩
      intro x hx
      rcases List.mem_singleton.mp hx with rfl
      exact hval
    | none =>
      cases hdm : book.docIsbnMatches with
      | error e => exact Or.inl ⟨e, by simp [extractIsbn, hbi, hm, hdm]⟩
      | ok docs =>
        by_cases hempty :
            (docs.take 5).foldl (fun a ms => a ++ findIsbnsInText ms) [] = []
        · right
          have hrec : extractIsbn book = {} := by
            simp [extractIsbn, hbi, hm, hdm, hempty]
          rw [hrec]
          exact ⟨rfl, by simp, by simp, rfl⟩
        · right
          have hcand : (extractIsbn book).isbn_candidates =
              dedupeKeepFirst
                ((docs.take 5).foldl (fun a ms => a ++ findIsbnsInText ms) []) := by
            simp [extractIsbn, hbi, hm, hdm, hempty]
          have hall : (extractIsbn book).all_isbns =
              dedupeKeepFirst
                ((docs.take 5).foldl (fun a ms => a ++ findIsbnsInText ms) []) := by
            simp [extractIsbn, hbi, hm, hdm, hempty]
          have herr : (extractIsbn book).error = none := by
            simp [extractIsbn, hbi, hm, hdm, hempty]
          refine ⟨herr, ?_, ?_, by rw [hall, hcand]⟩
          · intro x hx
            rw [hcand] at hx
            have hx' := ((mem_dedupeAux _ _).1 hx).1
            exact valid_of_mem_scanFold x (docs.take 5) [] (by simp) hx'
          · rw [hcand]
            exact nodup_dedupeAux _ _

/-- C5: every identifier string returned by identifier discovery — the
free-text scanner and the candidate lists produced by `extract_isbn` —
passes the checksum validator; de-duplication keeps a duplicate-free
sublist of the discovered values (first-seen order preserved, membership
unchanged), and the returned candidate lists are duplicate-free. -/
theorem identifier_discovery_valid_and_deduped :
    (∀ (ms : List String) (x : String), x ∈ findIsbnsInText ms →
      isValidIsbn x = true) ∧
    (∀ ms : List String, (findIsbnsInText ms).Nodup) ∧
    (∀ l : List String, List.Sublist (dedupeKeepFirst l) l ∧
      (dedupeKeepFirst l).Nodup ∧ (∀ x, x ∈ dedupeKeepFirst l ↔ x ∈ l)) ∧
    (∀ (book : Book) (x : String), x ∈ (extractIsbn book).isbn_candidates →
      isValidIsbn x = true) ∧
    (∀ (book : Book) (x : String), x ∈ (extractIsbn book).all_isbns →
      isValidIsbn x = true) ∧
    (∀ book : Book, (extractIsbn book).isbn_candidates.Nodup ∧
      (extractIsbn book).all_isbns.Nodup) := by
  have hcand : ∀ (book : Book) (x : String),
      x ∈ (extractIsbn book).isbn_candidates → isValidIsbn x = true := by
    intro book x hx
    rcases extractIsbn_shape book with ⟨e, hrec⟩ | ⟨_, hvalid, _, _⟩
    · rw [hrec] at hx
      simp at hx
    · exact hvalid x hx
  have hnodup : ∀ book : Book, (extractIsbn book).isbn_candidates.Nodup := by
    intro book
    rcases extractIsbn_shape book with ⟨e, hrec⟩ | ⟨_, _, hnd, _⟩
    · rw [hrec]
      simp
    · exact hnd
  have hallcand : ∀ book : Book,
      (extractIsbn book).all_isbns = (extractIsbn book).isbn_candidates := by
    intro book
    rcases extractIsbn_shape book with ⟨e, hrec⟩ | ⟨_, _, _, heq⟩
    · rw [hrec]
    · exact heq
  refine ⟨valid_of_mem_findIsbnsInText, ?_, ?_, hcand, ?_, ?_⟩
  · intro ms
    exact nodup_dedupeAux _ _
  · intro l
    refine ⟨sublist_dedupeAux _ _, nodup_dedupeAux _ _, ?_⟩
    intro x
    rw [dedupeKeepFirst, mem_dedupeAux]
    simp
  · intro book x hx
    exact hcand book x (hallcand book ▸ hx)
  · intro book
    exact ⟨hnodup book, hallcand book ▸ hnodup book⟩

/-- Witness for C5: the scanner output on a concrete regex match contains
exactly the normalized identifier, and it validates. -/
theorem identifier_discovery_witness :
    "9780306406157" ∈ findIsbnsInText ["978-0-306-40615-7"] ∧
    isValidIsbn "9780306406157" = true :=
  ⟨by decide,
    identifier_discovery_valid_and_deduped.1 ["978-0-306-40615-7"]
      "9780306406157" (by decide)⟩

/-! ## Totality and error reporting of the extraction boundary -/

/-- C9: the four local extraction functions are total — every book yields
a result record — and an internal exception is reported through the
`error` field while every remaining field keeps its default value; in
particular a collaborator failure at the head of each function surfaces as
exactly that error report. -/
theorem extraction_total_and_error_defaults :
    (∀ book : Book, (extractIsbn book).error ≠ none →
      extractIsbn book = { error := (extractIsbn book).error }) ∧
    (∀ (book : Book) (e : String), book.dcIdentifiers = .error e →
      extractIsbn book = { error := some e }) ∧
    (∀ book : Book, (extractEpubMetadata book).error ≠ none →
      extractEpubMetadata book = { error := (extractEpubMetadata book).error }) ∧
    (∀ (book : Book) (e : String), book.dcFields = .error e →
      extractEpubMetadata book = { error := some e }) ∧
    (∀ (book : Book) (maxChars : Nat),
      (extractTextPreview book maxChars).error ≠ none →
      extractTextPreview book maxChars =
        { error := (extractTextPreview book maxChars).error }) ∧
    (∀ (book : Book) (maxChars : Nat) (e : String), book.docChunks = .error e →
      extractTextPreview book maxChars = { error := some e }) ∧
    (∀ book : Book, (extractCover book).error ≠ none →
      extractCover book = { has_cover := false, error := (extractCover book).error }) ∧
    (∀ (book : Book) (e : String), book.coverRaw = .error e →
      extractCover book = { has_cover := false, error := some e }) := by
  refine ⟨?_, ?_, ?_, ?_, ?_, ?_, ?_, ?_⟩
  · intro book h
    rcases extractIsbn_shape book with ⟨e, hrec⟩ | ⟨herr, _, _, _⟩
    · rw [hrec]
    · exact absurd herr h
  · intro book e h
    simp [extractIsbn, h]
  · intro book h
    cases hf : book.dcFields with
    | error e => simp [extractEpubMetadata, hf]
    | ok f =>
      exfalso
      apply h
      simp [extractEpubMetadata, hf]
  · intro book e h
    simp [extractEpubMetadata, h]
  · intro book maxChars h
    cases hc : book.docChunks with
    | error e => simp [extractTextPreview, hc]
    | ok chunks =>
      cases hl : book.dcLanguage with
      | error e => simp [extractTextPreview, hc, hl]
      | ok lm =>
        exfalso
        apply h
        simp [extractTextPreview, hc, hl]
  · intro book maxChars e h
    simp [extractTextPreview, h]
  · intro book h
    cases hc : book.coverRaw with
    | error e => simp [extractCover, hc]
    | ok sel =>
      exfalso
      apply h
      cases sel with
      | none => simp [extractCover, hc]
      | some s =>
        simp only [extractCover, hc]
        split
        · rfl
        · split
          · rfl
          · rfl
  · intro book e h
    simp [extractCover, h]

/-- A book whose identifier-field lookup raises. -/
def bookIdsFail : Book := { dcIdentifiers := .error "identifier boom" }

/-- Witness for C9 at a concrete book: the raised description lands in the
`error` field with every other field at its default. -/
theorem extraction_error_defaults_witness :
    extractIsbn bookIdsFail = { error := some "identifier boom" } :=
  extraction_total_and_error_defaults.2.1 bookIdsFail "identifier boom" rfl

/-! ## Workflow contract theorems -/

/-- A JSON field that is missing, `null`, or the empty string. -/
def missingOrEmptyJ (v : Option JVal) : Prop :=
  v = none ∨ v = some .null ∨ v = some (.str "")

/-- The payload deficiency named by the contract: payload missing, not an
object, or with missing or empty title or author. -/
def payloadDeficient (fields : List (String × JVal)) : Prop :=
  match objGet fields "payload" with
  | some (.obj payload) =>
    missingOrEmptyJ (objGet payload "title") ∨
      missingOrEmptyJ (objGet payload "author")
  | _ => True

/-- A missing, null or empty field is falsy. -/
theorem jOptTruthy_false_of_missingOrEmpty {v : Option JVal}
    (h : missingOrEmptyJ v) : jOptTruthy v = false := by
  rcases h with rfl | rfl | rfl <;> rfl

/-- C7: a raw enrichment reply whose success flag is true but whose payload
is missing, not an object, or missing/empty in title or author is rejected
by response validation, and the result delivered to the pipeline is the
synthesized failure response: success false, a single-element errors list
holding the violation message, the source forced to the expected value,
and the raw reply preserved. -/
theorem contract_rejects_bad_payload (fields : List (String × JVal))
    (expectedSource : String)
    (hsuc : objGet fields "success" = some (.bool true))
    (hbad : payloadDeficient fields) :
    validateWorkflowResponse (.obj fields) expectedSource =
      .error (validationErrMsg
        (validateWorkflowResponse (.obj fields) expectedSource)) ∧
    handleWorkflowResult (.obj fields) expectedSource =
      .obj [("success", .bool false), ("source", .str expectedSource),
        ("payload", .obj []),
        ("errors", .arr [.str (validationErrMsg
          (validateWorkflowResponse (.obj fields) expectedSource))]),
        ("raw", .obj fields)] := by
  have hexists : ∃ m,
      validateWorkflowResponse (.obj fields) expectedSource = .error m := by
    unfold validateWorkflowResponse
    simp only [hasKey, hsuc, Option.isSome_some, Bool.not_true, Bool.false_or,
      Option.getD_some]
    cases hsrc : objGet fields "source" with
    | none => simp [hsrc]
    | some sv =>
      simp only [hsrc, Option.isSome_some, Bool.not_true, Bool.or_self,
        Bool.false_eq_true, if_false, Option.getD_some, if_true]
      cases sv with
      | str s =>
        by_cases hse : s = expectedSource
        · simp only [hse, ne_eq, not_true_eq_false, if_false, if_true,
            reduceIte]
          unfold payloadDeficient at hbad
          cases hp : objGet fields "payload" with
          | none => simp [hp]
          | some pv =>
            cases pv with
            | obj payload =>
              rw [hp] at hbad
              rcases hbad with hb | hb
              · simp [hp, jOptTruthy_false_of_missingOrEmpty hb]
              · simp [hp, jOptTruthy_false_of_missingOrEmpty hb]
            | null => simp [hp]
            | bool b => simp [hp]
            | num n => simp [hp]
            | str s2 => simp [hp]
            | arr l => simp [hp]
        · simp [hse]
      | null => simp
      | bool b => simp
      | num n => simp
      | arr l => simp
      | obj o => simp
  obtain ⟨m, hm⟩ := hexists
  refine ⟨?_, ?_⟩
  · rw [hm]
    rfl
  · rw [handleWorkflowResult, hm]
    rfl

/-- The spec's contract example: success without an author. -/
def rawMissingAuthor : List (String × JVal) :=
  [("success", .bool true), ("source", .str "x"),
    ("payload", .obj [("title", .str "A")])]

/-- Witness for C7 at the spec's concrete malformed reply. -/
theorem contract_rejects_bad_payload_witness :
    validateWorkflowResponse (.obj rawMissingAuthor) "x" =
      .error (validationErrMsg
        (validateWorkflowResponse (.obj rawMissingAuthor) "x")) ∧
    handleWorkflowResult (.obj rawMissingAuthor) "x" =
      .obj [("success", .bool false), ("source", .str "x"),
        ("payload", .obj []),
        ("errors", .arr [.str (validationErrMsg
          (validateWorkflowResponse (.obj rawMissingAuthor) "x"))]),
        ("raw", .obj rawMissingAuthor)] :=
  contract_rejects_bad_payload rawMissingAuthor "x" rfl
    (Or.inr (Or.inl rfl))

/-! ## Resumable-state cache theorems -/

/-- C8: when the cache client is absent or the membership lookup raises a
cache error, filtering returns every input file unchanged — all files are
treated as unprocessed (fail-open). -/
theorem state_filter_fail_open :
    (∀ (smembers : Except String (List String)) (allFiles : List String),
      filterProcessedFiles false smembers allFiles = allFiles) ∧
    (∀ (e : String) (allFiles : List String),
      filterProcessedFiles true (.error e) allFiles = allFiles) := by
  constructor
  · intro smembers allFiles
    rfl
  · intro e allFiles
    rfl

/-! ## Cover selector theorems -/

/-- Membership through stable insertion. -/
theorem mem_insertSorted {α : Type} (le : α → α → Bool) (a x : α) :
    ∀ l : List α, x ∈ insertSorted le a l ↔ x = a ∨ x ∈ l := by
  intro l
  induction l with
  | nil => simp [insertSorted]
  | cons y ys ih =>
    unfold insertSorted
    by_cases hle : le y a = true
    · rw [if_pos hle, List.mem_cons, ih, List.mem_cons]
      tauto
    · rw [if_neg hle, List.mem_cons, List.mem_cons]

/-- The stable sort permutes membership only. -/
theorem mem_stableSort {α : Type} (le : α → α → Bool) (l : List α) (x : α) :
    x ∈ stableSort le l ↔ x ∈ l := by
  suffices h : ∀ (l acc : List α),
      x ∈ l.foldl (fun acc y => insertSorted le y acc) acc ↔ x ∈ acc ∨ x ∈ l by
    have := h l []
    simpa [stableSort] using this
  intro l
  induction l with
  | nil => intro acc; simp
  | cons y ys ih =>
    intro acc
    rw [List.foldl_cons, ih, mem_insertSorted]
    simp only [List.mem_cons]
    tauto

/-- A candidate entry with both dimensions known and nonzero and a side
below the 300px threshold. -/
def sizeViolation (q : ImgPayload) : Prop :=
  ∃ w h, q.width = some w ∧ q.height = some h ∧ w ≠ 0 ∧ h ≠ 0 ∧
    (w < 300 ∨ h < 300)

/-- No pair surviving the per-item loop violates the size rule. -/
theorem processItems_size_ok (lookup : List (String × Nat)) :
    ∀ (items : List ImgItem) (pr : Option Nat × ImgPayload),
      pr ∈ processItems lookup items → ¬ sizeViolation pr.2 := by
  intro items
  induction items with
  | nil => intro pr h; cases h
  | cons item rest ih =>
    intro pr h
    unfold processItems at h
    cases hr : item.readOk with
    | error e =>
      simp only [hr] at h
      exact ih pr h
    | ok bs =>
      simp only [hr] at h
      by_cases hm : mediaSvgB item = true
      · rw [if_pos hm] at h
        exact ih pr h
      · rw [if_neg hm] at h
        by_cases hn : nameSvgB item = true
        · rw [if_pos hn] at h
          exact ih pr h
        · rw [if_neg hn] at h
          by_cases hs : sizeDropB item = true
          · rw [if_pos hs] at h
            exact ih pr h
          · rw [if_neg hs] at h
            rcases List.mem_cons.mp h with rfl | h'
            · rintro ⟨w, ht, hw, hh, hw0, hh0, hlt⟩
              apply hs
              rcases hd : item.decoded with _ | ⟨a, b, f⟩
              · rw [mkImgPayload] at hw
                simp [hd] at hw
              · rw [mkImgPayload] at hw hh
                simp only [hd, Option.map_some'] at hw hh
                cases hw
                cases hh
                simp only [sizeDropB, hd, Option.map_some', optTruthyNat,
                  Option.getD_some]
                rcases hlt with hlt | hlt
                · simp [hw0, hh0, hlt]
                · simp [hw0, hh0, hlt]
            · exact ih pr h'

/-- A readable, non-SVG, undecodable item always contributes its entry to
the per-item loop's output. -/
theorem processItems_undecodable_mem (lookup : List (String × Nat)) :
    ∀ (items : List ImgItem) (item : ImgItem) (bs : List Nat),
      item ∈ items → item.readOk = .ok bs → mediaSvgB item = false →
      nameSvgB item = false → item.decoded = none →
      (lookupGet lookup (normalizedNameOf item), mkImgPayload item bs) ∈
        processItems lookup items := by
  intro items
  induction items with
  | nil => intro item bs hmem; cases hmem
  | cons hd rest ih =>
    intro item bs hmem hread hmedia hname hdec
    rcases List.mem_cons.mp hmem with rfl | hmem'
    · unfold processItems
      have hsz : sizeDropB item = false := by
        simp [sizeDropB, hdec, optTruthyNat]
      simp only [hread, hmedia, hname, hsz, Bool.false_eq_true, if_false]
      exact List.mem_cons_self _ _
    · unfold processItems
      have htail := ih item bs hmem' hread hmedia hname hdec
      cases hr : hd.readOk with
      | error e =>
        simp only [hr]
        exact htail
      | ok bs2 =>
        simp only [hr]
        by_cases hm : mediaSvgB hd = true
        · rw [if_pos hm]; exact htail
        · rw [if_neg hm]
          by_cases hn : nameSvgB hd = true
          · rw [if_pos hn]; exact htail
          · rw [if_neg hn]
            by_cases hs : sizeDropB hd = true
            · rw [if_pos hs]; exact htail
            · rw [if_neg hs]
              exact List.mem_cons_of_mem _ htail

/-- Every entry of the flagged list shares all fields except the primary
flag with an entry of the input list. -/
theorem dims_of_mem_flagPrimaryHead (l : List ImgPayload) (q : ImgPayload)
    (hq : q ∈ (flagPrimaryHead l).1) :
    ∃ x ∈ l, q.width = x.width ∧ q.height = x.height := by
  cases l with
  | nil => cases hq
  | cons p rest =>
    rcases List.mem_cons.mp hq with rfl | hq'
    · exact ⟨p, List.mem_cons_self _ _, rfl, rfl⟩
    · exact ⟨q, List.mem_cons_of_mem _ hq', rfl, rfl⟩

/-- Every entry of the input list appears in the flagged list with all
fields except the primary flag intact. -/
theorem mem_flagPrimaryHead_of_mem (l : List ImgPayload) (x : ImgPayload)
    (hx : x ∈ l) :
    ∃ q ∈ (flagPrimaryHead l).1, q.filename = x.filename ∧
      q.media_type = x.media_type ∧ q.width = x.width ∧ q.height = x.height ∧
      q.format = x.format ∧ q.content = x.content := by
  cases l with
  | nil => cases hx
  | cons p rest =>
    rcases List.mem_cons.mp hx with rfl | hx'
    · exact ⟨{ x with primary := true }, List.mem_cons_self _ _,
        rfl, rfl, rfl, rfl, rfl, rfl⟩
    · exact ⟨x, List.mem_cons_of_mem _ hx', rfl, rfl, rfl, rfl, rfl, rfl⟩

/-- An embedded image decoded to a zero width (dimensions known, both
below 300). -/
def imgZeroWidth : ImgItem :=
  { readOk := .ok [7], file_name := some "a.png",
    media_type := some "image/png", decoded := some (0, 100, some "PNG") }

/-- C6 counterexample: an image decoded to 0 × 100 — both dimensions known
and below the 300px threshold — is not excluded: it is the sole candidate
in the selector's output, because Python truthiness treats the zero width
as falsy and skips the size rule. -/
theorem cover_size_exclusion_refuted :
    ((extractCoverImages [] [imgZeroWidth]).1.map (fun q => (q.width, q.height))) =
      [(some 0, some 100)] ∧ (0 : Nat) < 300 ∧ (100 : Nat) < 300 := by decide

/-- C6 (amended): the selector excludes an embedded image when both of its
dimensions are known and nonzero and at least one of them is below the
300px threshold — no surviving candidate has such dimensions — and a
readable, non-SVG image whose dimensions are unknown (undecodable) is
never excluded by this size rule. -/
theorem cover_size_rule (docs : List (List String)) (items : List ImgItem) :
    (∀ q ∈ (extractCoverImages docs items).1, ¬ sizeViolation q) ∧
    (∀ item ∈ items, ∀ bs : List Nat,
      item.readOk = .ok bs → mediaSvgB item = false → nameSvgB item = false →
      item.decoded = none →
      ∃ q ∈ (extractCoverImages docs items).1,
        q.width = none ∧ q.height = none ∧
        q.filename = item.file_name.getD "" ∧ q.media_type = item.media_type ∧
        q.format = none ∧ q.content = bs) := by
  constructor
  · intro q hq
    unfold extractCoverImages at hq
    rcases dims_of_mem_flagPrimaryHead _ q hq with ⟨x, hx, hwq, hhq⟩
    rcases List.mem_map.mp hx with ⟨pr, hpr, rfl⟩
    have hpr' := (mem_stableSort pairLe _ pr).1 hpr
    have hok := processItems_size_ok (buildImageLookup docs) items pr hpr'
    rintro ⟨w, h, hw, hh, hw0, hh0, hlt⟩
    exact hok ⟨w, h, hwq ▸ hw, hhq ▸ hh, hw0, hh0, hlt⟩
  · intro item hmem bs hread hmedia hname hdec
    have hpr := processItems_undecodable_mem (buildImageLookup docs) items
      item bs hmem hread hmedia hname hdec
    have hsorted : (lookupGet (buildImageLookup docs) (normalizedNameOf item),
        mkImgPayload item bs) ∈
        stableSort pairLe (processItems (buildImageLookup docs) items) :=
      (mem_stableSort pairLe _ _).2 hpr
    have hmap : mkImgPayload item bs ∈
        (stableSort pairLe (processItems (buildImageLookup docs) items)).map
          (fun p => p.2) :=
      List.mem_map.mpr ⟨_, hsorted, rfl⟩
    rcases mem_flagPrimaryHead_of_mem _ _ hmap with
      ⟨q, hq, hf, hmt, hwq, hhq, hfm, hc⟩
    refine ⟨q, hq, ?_, ?_, ?_, ?_, ?_, ?_⟩
    · rw [hwq]
      simp [mkImgPayload, hdec]
    · rw [hhq]
      simp [mkImgPayload, hdec]
    · rw [hf]
      rfl
    · rw [hmt]
      rfl
    · rw [hfm]
      simp [mkImgPayload, hdec]
    · rw [hc]
      rfl

/-- A readable, non-SVG, undecodable embedded image. -/
def imgUndecodable : ImgItem :=
  { readOk := .ok [1, 2], file_name := some "cover.jpg",
    media_type := some "image/jpeg", decoded := none }

/-- Witness for the amended C6 at a concrete undecodable image: its entry
survives into the candidate list with unknown dimensions. -/
theorem cover_size_rule_witness :
    ∃ q ∈ (extractCoverImages [] [imgUndecodable]).1,
      q.width = none ∧ q.height = none ∧ q.filename = "cover.jpg" ∧
      q.media_type = some "image/jpeg" ∧ q.format = none ∧ q.content = [1, 2] :=
  (cover_size_rule [] [imgUndecodable]).2 imgUndecodable
    (List.mem_singleton.mpr rfl) [1, 2] rfl rfl rfl rfl

end SortBook
